import Mathlib

/-!
Verification development for the `justoneminute` thread-summarizer service.

The JavaScript/TypeScript sources are shallowly embedded in Lean: JS strings
become `List Char` (wrapped into `String` at the boundary), the specific
regular expressions used by the code become executable matching functions,
asynchronous handlers become pure functions over explicit outcome oracles
(one oracle value per upstream interaction), and thrown JS errors become
explicit error results.

Section 1 models the handful of JS string primitives the code relies on
(`trim`, `split(/\s+/)`, `split(/([.!?]+)/)`, `replace(/[.!?]*$/, '')`,
`toLowerCase`, `includes`, regex `test`/`match` for the concrete patterns
appearing in the sources).  Later sections embed, function by function, the
code of `netlify/functions/summarize.js` (second revision in the file),
`netlify/functions/crypto-explain.js`, `netlify/functions/track-visit.js`
and `server.ts`, and prove or refute the specification claims about them.
-/

namespace JOM

/-- Whitespace characters recognised by the embedding of JS `trim` /
`split(/\s+/)`: space, tab, line feed, carriage return, vertical tab and
form feed (the ASCII portion of the JS `\s` class; the additional Unicode
space code points accepted by JS never occur in any string handled here). -/
def isWs (c : Char) : Bool :=
  c = ' ' || c = '\t' || c = '\n' || c = '\r' || c = '\x0b' || c = '\x0c'

/-- The three sentence-terminal punctuation characters of the class
`[.!?]` used throughout `ensureCompleteSentence`. -/
def isPunct (c : Char) : Bool :=
  c = '.' || c = '!' || c = '?'

/-- JS regex word character (`\w`): ASCII letter, digit or underscore. -/
def isWordChar (c : Char) : Bool :=
  ('a' ≤ c && c ≤ 'z') || ('A' ≤ c && c ≤ 'Z') || ('0' ≤ c && c ≤ '9') || c = '_'

/-- JS regex digit (`\d`). -/
def isDigit (c : Char) : Bool :=
  '0' ≤ c && c ≤ '9'

/-- ASCII lower-casing, as performed by JS `toLowerCase` on the ASCII
strings this code ever lower-cases. -/
def lowerChar (c : Char) : Char :=
  if 'A' ≤ c && c ≤ 'Z' then Char.ofNat (c.toNat + 32) else c

/-- `toLowerCase` on a character list. -/
def lowerList (l : List Char) : List Char :=
  l.map lowerChar

/-- Left half of JS `String.prototype.trim`. -/
def trimLeftL (l : List Char) : List Char :=
  l.dropWhile isWs

/-- Right half of JS `String.prototype.trim`. -/
def trimRightL (l : List Char) : List Char :=
  (trimLeftL l.reverse).reverse

/-- JS `String.prototype.trim`. -/
def trimL (l : List Char) : List Char :=
  trimRightL (trimLeftL l)

/-- One step of `wsSplit`: extend the split `acc` of `rest` by the
character `c` (a whitespace run is collapsed by leaving `acc` unchanged
while the next character is also whitespace). -/
def wsSplitStep (c : Char) (rest : List Char) (acc : List (List Char)) :
    List (List Char) :=
  if isWs c then
    match rest with
    | [] => [[], []]
    | c2 :: _ => if isWs c2 then acc else [] :: acc
  else
    match acc with
    | f :: fs => (c :: f) :: fs
    | [] => [[c]]

/-- JS `text.split(/\s+/)`.  Splits at each maximal whitespace run and,
exactly as in JS, produces an empty leading (resp. trailing) field when the
string begins (resp. ends) with whitespace; the empty string splits to a
single empty field. -/
def wsSplit : List Char → List (List Char)
  | [] => [[]]
  | c :: rest => wsSplitStep c rest (wsSplit rest)

/-- One step of `splitCapturePunct`: extend the alternating split `acc` of
`rest` by the character `c` (a punctuation character either starts a new
captured run or is prepended to the run that begins `rest`). -/
def splitCapStep (c : Char) (rest : List Char) (acc : List (List Char)) :
    List (List Char) :=
  if isPunct c then
    match rest, acc with
    | r :: _, t0 :: p0 :: tl =>
      if isPunct r then t0 :: (c :: p0) :: tl
      else [] :: [c] :: acc
    | _, _ => [] :: [c] :: acc
  else
    match acc with
    | t0 :: tl => (c :: t0) :: tl
    | [] => [[c]]

/-- JS `text.split(/([.!?]+)/)` with its capturing group: the result
alternates text pieces with the captured maximal `[.!?]` runs, beginning
and ending with a (possibly empty) text piece. -/
def splitCapturePunct : List Char → List (List Char)
  | [] => [[]]
  | c :: rest => splitCapStep c rest (splitCapturePunct rest)

/-- The text pieces of an alternating `splitCapturePunct` list; applied to
`splitCapturePunct l` this yields exactly JS `l.split(/[.!?]+/)` (the
non-capturing split). -/
def altTexts : List (List Char) → List (List Char)
  | t :: _ :: rest => t :: altTexts rest
  | [t] => [t]
  | [] => []

/-- JS `text.replace(/[.!?]*$/, '')`: removes the maximal trailing run of
sentence punctuation. -/
def dropTrailingPunct (l : List Char) : List Char :=
  (l.reverse.dropWhile isPunct).reverse

/-- JS `Array.prototype.join(' ')` on a list of words. -/
def joinSpace : List (List Char) → List Char
  | [] => []
  | [w] => w
  | w :: ws => w ++ ' ' :: joinSpace ws

/-- JS `Array.prototype.join(sep)` at the `String` level. -/
def joinSep (sep : String) : List String → String
  | [] => ""
  | [s] => s
  | s :: ss => s ++ sep ++ joinSep sep ss

/-- Does `pat` occur at the start of `l` (case-sensitively)? -/
def headMatches : List Char → List Char → Bool
  | [], _ => true
  | _ :: _, [] => false
  | p :: ps, c :: cs => p = c && headMatches ps cs

/-- JS `String.prototype.includes(pat)`. -/
def containsSub (pat : List Char) : List Char → Bool
  | [] => headMatches pat []
  | c :: rest => headMatches pat (c :: rest) || containsSub pat rest

/-- `containsSub` on `String`s. -/
def containsSubS (l pat : String) : Bool :=
  containsSub pat.data l.data

/-- Does `pat` occur at the start of `l`, comparing ASCII case-insensitively
(JS regex `i` flag)? -/
def headMatchesCI : List Char → List Char → Bool
  | [], _ => true
  | _ :: _, [] => false
  | p :: ps, c :: cs => lowerChar p = lowerChar c && headMatchesCI ps cs

/-- Case-insensitive substring test: the embedding of `/pat/i.test(l)` for a
literal pattern `pat`. -/
def containsSubCI (pat : List Char) : List Char → Bool
  | [] => headMatchesCI pat []
  | c :: rest => headMatchesCI pat (c :: rest) || containsSubCI pat rest

/-- Does some token of `toks` start here with a word boundary on both sides
(case-insensitively)?  `prevIsWord` records whether the character preceding
`l` is a word character (so whether a `\b` boundary holds before `l`). -/
def tokenAtHead (toks : List (List Char)) (prevIsWord : Bool) (l : List Char) : Bool :=
  !prevIsWord && toks.any fun t =>
    headMatchesCI t l &&
      (match (l.drop t.length).head? with
       | none => true
       | some d => !isWordChar d)

/-- Embedding of `/\b(t1|t2|...)\b/i.test(w)` for a list of literal
alternatives: scans every position of `w` for a case-insensitive occurrence
of some token delimited by word boundaries. -/
def containsTokenCI (toks : List (List Char)) : (prevIsWord : Bool) → List Char → Bool
  | _, [] => false
  | prevW, c :: rest =>
    tokenAtHead toks prevW (c :: rest) || containsTokenCI toks (isWordChar c) rest

/-!
### `ensureCompleteSentence` (netlify/functions/summarize.js, lines 802-888)

The word lists and every threshold below are transcribed from the source.
-/

/-- The subject alternatives of the `hasSubject` regex in
`ensureCompleteSentence`. -/
def subjectTokens : List (List Char) :=
  ["it", "this", "that", "these", "those", "they", "we", "you", "I", "he",
   "she", "the", "a", "an"].map String.data

/-- The verb alternatives of the `hasVerb` regex in
`ensureCompleteSentence`. -/
def verbTokens : List (List Char) :=
  ["is", "are", "was", "were", "has", "have", "had", "will", "would", "can",
   "could", "should", "might", "must", "do", "does", "did", "get", "got",
   "make", "made", "take", "took", "go", "went", "come", "came", "see",
   "saw", "know", "knew", "think", "thought", "say", "said", "tell", "told",
   "give", "gave", "find", "found", "use", "used", "work", "worked", "help",
   "helped", "show", "showed", "mean", "means", "allow", "allows", "enable",
   "enables", "provide", "provides", "include", "includes", "contain",
   "contains", "involve", "involves", "require", "requires", "offer",
   "offers", "support", "supports"].map String.data

/-- The `breakWords` list of `ensureCompleteSentence`. -/
def breakWords : List (List Char) :=
  ["and", "but", "or", "so", "because", "since", "while", "when", "where",
   "which", "that", "with", "for", "in", "on", "at", "by", "from",
   "to"].map String.data

/-- `/^[A-Z]/.test(word) || /\b(it|this|...)\b/i.test(word)` from the
`hasSubject` check. -/
def hasSubjectWord (w : List Char) : Bool :=
  (match w.head? with
   | some c => 'A' ≤ c && c ≤ 'Z'
   | none => false) || containsTokenCI subjectTokens false w

/-- `/\b(is|are|...)\b/i.test(word)` from the `hasVerb` check. -/
def hasVerbWord (w : List Char) : Bool :=
  containsTokenCI verbTokens false w

/-- Does the string end with `[.!?]` (the `/[.!?]$/.test` check)? -/
def endsPunct (l : List Char) : Bool :=
  match l.getLast? with
  | some c => isPunct c
  | none => false

/-- One `(sentence, punctuation)` pair of the sentence-rebuilding loop of
`ensureCompleteSentence`: the pair contributes `sentence.trim() +
punctuation` exactly when the source's nested conditions hold. -/
def includePair (s p : List Char) : Bool :=
  !s.isEmpty && (trimL s).length > 0 && !p.isEmpty && p.any isPunct &&
    (let words := wsSplit (trimL s)
     decide (words.length ≥ 4) &&
       ((words.any hasSubjectWord && words.any hasVerbWord) ||
         decide (words.length ≥ 6)))

/-- The rebuilding loop `for (let i = 0; i < sentenceParts.length - 1;
i += 2)` over the alternating `split(/([.!?]+)/)` list, accumulating
`completeText`. -/
def processPairs : List (List Char) → List Char
  | s :: p :: rest =>
    (if includePair s p then trimL s ++ p else []) ++ processPairs rest
  | _ => []

/-- One index check of the backwards `breakWords` loop: succeed
with `words.slice(0, i).join(' ')` when `words[i]` is a break word and the
truncation keeps at least 3 words. -/
def breakCheck (words : List (List Char)) (i : Nat) : Option (List Char) :=
  if breakWords.contains (lowerList (words.getD i [])) then
    let truncated := joinSpace (words.take i)
    if (wsSplit truncated).length ≥ 3 then some truncated else none
  else none

/-- The backwards loop `for (let i = words.length - 1;
i >= Math.max(3, words.length - 6); i--)` of `ensureCompleteSentence`,
descending from the second argument down to `lo`. -/
def breakSearch (words : List (List Char)) (lo : Nat) : Nat → Option (List Char)
  | 0 => if 0 < lo then none else breakCheck words 0
  | i + 1 =>
    if i + 1 < lo then none
    else
      match breakCheck words (i + 1) with
      | some t => some t
      | none => breakSearch words lo i

/-- The early acceptance test of `ensureCompleteSentence`: the text ends
with punctuation and its last nonempty `[.!?]+`-delimited sentence has at
least 3 whitespace-separated words. -/
def acceptEarly (cleanText : List Char) : Bool :=
  endsPunct cleanText &&
    (match ((altTexts (splitCapturePunct cleanText)).filter
        (fun s => (trimL s).length > 0)).getLast? with
     | some ls => (wsSplit (trimL ls)).length ≥ 3
     | none => false)

/-- Body of `ensureCompleteSentence` after the trim, operating on the
already-trimmed `cleanText`. -/
def ecsRebuild (cleanText : List Char) : List Char :=
  let completeText := processPairs (splitCapturePunct cleanText)
  if (trimL completeText).length > 15 then trimL completeText
  else
    let words := wsSplit (dropTrailingPunct cleanText)
    if words.length ≤ 3 then dropTrailingPunct cleanText ++ ['.']
    else
      match breakSearch words (max 3 (words.length - 6)) (words.length - 1) with
      | some truncated => truncated ++ ['.']
      | none =>
        let safeTruncated := joinSpace (words.take (max 3 (words.length - 3)))
        if (wsSplit safeTruncated).length ≥ 3 then safeTruncated ++ ['.']
        else dropTrailingPunct cleanText ++ ['.']

/-- `ensureCompleteSentence` from `netlify/functions/summarize.js`
(lines 802-888), on character lists. -/
def ensureCompleteSentenceL (text : List Char) : List Char :=
  if (trimL text).length = 0 then text
  else
    let cleanText := trimL text
    if acceptEarly cleanText then cleanText else ecsRebuild cleanText

/-- `ensureCompleteSentence` at the `String` boundary. -/
def ensureCompleteSentence (text : String) : String :=
  ⟨ensureCompleteSentenceL text.data⟩

/-! ### Support lemmas about the string primitives -/

theorem punct_not_ws {c : Char} (h : isPunct c = true) : isWs c = false := by
  simp only [isPunct, Bool.or_eq_true, decide_eq_true_eq] at h
  rcases h with (h | h) | h <;> subst h <;> decide

theorem trimLeftL_idem (l : List Char) : trimLeftL (trimLeftL l) = trimLeftL l :=
  List.dropWhile_idempotent _ _

theorem trimLeftL_ne_nil {l : List Char} {c : Char}
    (hl : l.getLast? = some c) (hc : isWs c = false) : trimLeftL l ≠ [] := by
  intro h
  have hmem : c ∈ l := List.mem_of_getLast?_eq_some hl
  have hall : l = l.takeWhile isWs := by
    have h2 := List.takeWhile_append_dropWhile isWs l
    rw [show List.dropWhile isWs l = [] from h, List.append_nil] at h2
    exact h2.symm
  rw [hall] at hmem
  have h3 := List.mem_takeWhile_imp hmem
  rw [hc] at h3
  exact Bool.false_ne_true h3

theorem getLast?_trimLeftL {l : List Char} (h : trimLeftL l ≠ []) :
    (trimLeftL l).getLast? = l.getLast? := by
  obtain ⟨t, ht⟩ := List.dropWhile_suffix (l := l) isWs
  unfold trimLeftL at h ⊢
  conv_rhs => rw [← ht]
  rw [List.getLast?_append]
  cases hgl : (List.dropWhile isWs l).getLast? with
  | none => exact absurd (List.getLast?_eq_none_iff.mp hgl) h
  | some a => rfl

theorem trimRightL_eq_self {l : List Char} {c : Char}
    (hl : l.getLast? = some c) (hc : isWs c = false) : trimRightL l = l := by
  unfold trimRightL trimLeftL
  have hh : l.reverse.head? = some c := by rw [List.head?_reverse]; exact hl
  cases hr : l.reverse with
  | nil => rw [hr] at hh; cases hh
  | cons d t =>
    rw [hr] at hh
    have hd : d = c := by injection hh
    subst hd
    rw [List.dropWhile_cons_of_neg (by rw [hc]; exact Bool.false_ne_true)]
    rw [← hr, List.reverse_reverse]

theorem endsPunct_trimL {l : List Char} (h : endsPunct l = true) :
    trimL l = trimLeftL l ∧ trimL l ≠ [] ∧ endsPunct (trimL l) = true := by
  unfold endsPunct at h
  cases hgl : l.getLast? with
  | none => rw [hgl] at h; cases h
  | some c =>
    rw [hgl] at h
    have hws : isWs c = false := punct_not_ws h
    have hne : trimLeftL l ≠ [] := trimLeftL_ne_nil hgl hws
    have hlast : (trimLeftL l).getLast? = some c := by
      rw [getLast?_trimLeftL hne, hgl]
    have heq : trimL l = trimLeftL l := trimRightL_eq_self hlast hws
    refine ⟨heq, heq ▸ hne, ?_⟩
    rw [heq]
    unfold endsPunct
    rw [hlast, h]

theorem trimRightL_idem (l : List Char) : trimRightL (trimRightL l) = trimRightL l := by
  unfold trimRightL trimLeftL
  rw [List.reverse_reverse, List.dropWhile_idempotent]

theorem trimLeftL_trimRightL {l : List Char} (h : trimLeftL l = l) :
    trimLeftL (trimRightL l) = trimRightL l := by
  cases htr : trimRightL l with
  | nil => rfl
  | cons d u =>
    have hpre : ∃ r, l = trimRightL l ++ r := by
      obtain ⟨t, ht⟩ := List.dropWhile_suffix (l := l.reverse) isWs
      refine ⟨t.reverse, ?_⟩
      unfold trimRightL trimLeftL
      have : (t ++ List.dropWhile isWs l.reverse).reverse = l := by
        rw [ht, List.reverse_reverse]
      rw [List.reverse_append] at this
      exact this.symm
    obtain ⟨r, hr⟩ := hpre
    rw [htr] at hr
    have hd : isWs d = false := by
      have hself : trimLeftL (d :: (u ++ r)) = d :: (u ++ r) := by
        rw [← List.cons_append, ← hr, h]
      by_contra hws
      have hws' : isWs d = true := by
        cases hdw : isWs d with
        | false => exact absurd hdw hws
        | true => rfl
      unfold trimLeftL at hself
      rw [List.dropWhile_cons_of_pos hws'] at hself
      have hlen := congrArg List.length hself
      simp only [List.length_cons] at hlen
      have hle := (List.dropWhile_suffix (l := u ++ r) isWs).length_le
      omega
    unfold trimLeftL
    rw [List.dropWhile_cons_of_neg (by rw [hd]; exact Bool.false_ne_true)]

theorem trimL_idem (l : List Char) : trimL (trimL l) = trimL l := by
  unfold trimL
  rw [trimLeftL_trimRightL (trimLeftL_idem l), trimRightL_idem]

/-! ### The alternating shape produced by `splitCapturePunct` -/

/-- Invariant of `splitCapturePunct` output: the odd-position (captured)
pieces are nonempty runs of `[.!?]` characters. -/
inductive AltShape : List (List Char) → Prop
  | single (t : List Char) : AltShape [t]
  | cons (t p : List Char) (rest : List (List Char)) (hne : p ≠ [])
      (hp : ∀ c ∈ p, isPunct c = true) (h : AltShape rest) :
      AltShape (t :: p :: rest)

theorem altShape_splitCapStep (c : Char) (rest : List Char)
    (acc : List (List Char)) (ih : AltShape acc) :
    AltShape (splitCapStep c rest acc) := by
  unfold splitCapStep
  by_cases hc : isPunct c = true
  · rw [if_pos hc]
    have hsingle : ∀ cs ∈ ([c] : List Char), isPunct cs = true := by
      intro x hx; simp only [List.mem_singleton] at hx; rw [hx]; exact hc
    split
    · next r tail t0 p0 tl =>
      by_cases hr : isPunct r = true
      · rw [if_pos hr]
        cases ih with
        | cons _ _ _ hne hp h =>
          refine AltShape.cons _ _ _ (by simp) ?_ h
          intro x hx
          rcases List.mem_cons.mp hx with hx | hx
          · rw [hx]; exact hc
          · exact hp x hx
      · rw [if_neg hr]
        exact AltShape.cons _ _ _ (by simp) hsingle ih
    · exact AltShape.cons _ _ _ (by simp) hsingle ih
  · rw [if_neg hc]
    cases hacc : acc with
    | nil => exact AltShape.single _
    | cons t0 tl =>
      rw [hacc] at ih
      cases ih with
      | single t => exact AltShape.single _
      | cons t p r hne hp h => exact AltShape.cons _ _ _ hne hp h

theorem altShape_splitCapturePunct (l : List Char) : AltShape (splitCapturePunct l) := by
  induction l with
  | nil => exact AltShape.single []
  | cons c rest ih => exact altShape_splitCapStep c rest _ ih

theorem endsPunct_append_right {x y : List Char} (hy : y ≠ []) :
    endsPunct (x ++ y) = endsPunct y := by
  unfold endsPunct
  rw [List.getLast?_append]
  cases hgl : y.getLast? with
  | none => exact absurd (List.getLast?_eq_none_iff.mp hgl) hy
  | some a => rfl

theorem endsPunct_ne_nil {y : List Char} (h : endsPunct y = true) : y ≠ [] := by
  intro hn
  rw [hn] at h
  cases h

theorem processPairs_spec {parts : List (List Char)} (h : AltShape parts) :
    processPairs parts = [] ∨ endsPunct (processPairs parts) = true := by
  induction h with
  | single t => exact Or.inl rfl
  | cons t p rest hne hp _ ih =>
    rw [show processPairs (t :: p :: rest)
        = (if includePair t p then trimL t ++ p else []) ++ processPairs rest from rfl]
    rcases ih with ih | ih
    · rw [ih, List.append_nil]
      by_cases hi : includePair t p = true
      · rw [if_pos hi]
        refine Or.inr ?_
        rw [endsPunct_append_right hne]
        unfold endsPunct
        rw [List.getLast?_eq_getLast p hne]
        exact hp _ (List.getLast_mem hne)
      · rw [if_neg (by simpa using hi)]
        exact Or.inl rfl
    · refine Or.inr ?_
      rw [endsPunct_append_right (endsPunct_ne_nil ih)]
      exact ih

/-! ### Postcondition of `ensureCompleteSentence` (claims C10, C5) -/

theorem ecsRebuild_spec (m : List Char) :
    ecsRebuild m ≠ [] ∧ endsPunct (ecsRebuild m) = true := by
  unfold ecsRebuild
  dsimp only
  split
  · next h15 =>
    rcases processPairs_spec (altShape_splitCapturePunct m) with hz | he
    · rw [hz] at h15
      simp [trimL, trimLeftL, trimRightL] at h15
    · obtain ⟨-, hne, hp⟩ := endsPunct_trimL he
      exact ⟨hne, hp⟩
  · split
    · exact ⟨by simp, by simp [endsPunct, List.getLast?_concat, isPunct]⟩
    · split
      · exact ⟨by simp, by simp [endsPunct, List.getLast?_concat, isPunct]⟩
      · split
        · exact ⟨by simp, by simp [endsPunct, List.getLast?_concat, isPunct]⟩
        · exact ⟨by simp, by simp [endsPunct, List.getLast?_concat, isPunct]⟩

theorem ecs_trim_empty {l : List Char} (h : (trimL l).length = 0) :
    ensureCompleteSentenceL l = l := by
  unfold ensureCompleteSentenceL
  rw [if_pos h]

theorem ecs_trim_nonempty {l : List Char} (h : (trimL l).length ≠ 0) :
    ensureCompleteSentenceL l ≠ [] ∧ endsPunct (ensureCompleteSentenceL l) = true := by
  unfold ensureCompleteSentenceL
  rw [if_neg h]
  by_cases ha : acceptEarly (trimL l) = true
  · rw [if_pos ha]
    have hp : endsPunct (trimL l) = true := by
      unfold acceptEarly at ha
      exact ((Bool.and_eq_true _ _).mp ha).1
    exact ⟨fun hn => h (by rw [hn]; rfl), hp⟩
  · rw [if_neg ha]
    exact ecsRebuild_spec (trimL l)

theorem ecs_accept_early {l : List Char} (h : acceptEarly (trimL l) = true) :
    ensureCompleteSentenceL l = trimL l := by
  have hp : endsPunct (trimL l) = true := by
    unfold acceptEarly at h
    exact ((Bool.and_eq_true _ _).mp h).1
  have hne : (trimL l).length ≠ 0 := by
    intro h0
    exact endsPunct_ne_nil hp (List.eq_nil_of_length_eq_zero h0)
  unfold ensureCompleteSentenceL
  rw [if_neg hne, if_pos h]

/-- Claim C5, counterexample: `ensureCompleteSentence` is not idempotent.
On the input `"aa bb cc dd. ee to ff gg"` the first application truncates at
the break word `"to"` and yields `"aa bb cc dd. ee."`, whose final sentence
`"ee"` has fewer than 3 words, so a second application rebuilds again and
yields `"aa bb cc."`. -/
theorem claim_C5_counterexample :
    ensureCompleteSentence "aa bb cc dd. ee to ff gg" = "aa bb cc dd. ee." ∧
    ensureCompleteSentence "aa bb cc dd. ee." = "aa bb cc." ∧
    ensureCompleteSentence (ensureCompleteSentence "aa bb cc dd. ee to ff gg") ≠
      ensureCompleteSentence "aa bb cc dd. ee to ff gg" := by
  refine ⟨by decide, by decide, ?_⟩
  decide

/-- Claim C5, amended: `ensureCompleteSentence` is idempotent on every
input that is already accepted unchanged up to trimming — inputs whose
trimmed form is empty, and inputs whose trimmed form ends in `.`, `!` or
`?` with a final punctuation-delimited sentence of at least 3 words.  It is
not idempotent on all strings (see the counterexample). -/
theorem claim_C5 (s : String)
    (h : (trimL s.data).length = 0 ∨ acceptEarly (trimL s.data) = true) :
    ensureCompleteSentence (ensureCompleteSentence s) = ensureCompleteSentence s := by
  rcases h with h | h
  · have e : ensureCompleteSentence s = s := by
      show (⟨ensureCompleteSentenceL s.data⟩ : String) = s
      rw [ecs_trim_empty h]
    rw [e]; exact e
  · have e : ensureCompleteSentence s = ⟨trimL s.data⟩ := by
      show (⟨ensureCompleteSentenceL s.data⟩ : String) = _
      rw [ecs_accept_early h]
    rw [e]
    show (⟨ensureCompleteSentenceL (trimL s.data)⟩ : String) = _
    rw [ecs_accept_early (by rw [trimL_idem]; exact h), trimL_idem]

/-- Witness for claim C5 at the concrete input `"Hi there my friend."`. -/
theorem claim_C5_witness :
    acceptEarly (trimL "Hi there my friend.".data) = true ∧
    ensureCompleteSentence (ensureCompleteSentence "Hi there my friend.") =
      ensureCompleteSentence "Hi there my friend." :=
  ⟨by decide, claim_C5 "Hi there my friend." (Or.inr (by decide))⟩

/-- Claim C10: for every input whose trimmed form is empty,
`ensureCompleteSentence` returns the input unchanged; for every input whose
trimmed form is non-empty, the result is non-empty and ends in `.`, `!` or
`?`. -/
theorem claim_C10 (s : String) :
    ((trimL s.data).length = 0 → ensureCompleteSentence s = s) ∧
    ((trimL s.data).length ≠ 0 →
      ensureCompleteSentence s ≠ "" ∧
        endsPunct (ensureCompleteSentence s).data = true) := by
  constructor
  · intro h
    show (⟨ensureCompleteSentenceL s.data⟩ : String) = s
    rw [ecs_trim_empty h]
  · intro h
    obtain ⟨hne, hp⟩ := ecs_trim_nonempty h
    refine ⟨?_, hp⟩
    intro hcontra
    exact hne (congrArg String.data hcontra)

/-- Witness for claim C10 at the concrete input
`"truncated mid sentence it was going so"` (non-empty trim). -/
theorem claim_C10_witness :
    (trimL "truncated mid sentence it was going so".data).length ≠ 0 ∧
    (ensureCompleteSentence "truncated mid sentence it was going so" ≠ "" ∧
      endsPunct (ensureCompleteSentence
        "truncated mid sentence it was going so").data = true) :=
  ⟨by decide, (claim_C10 "truncated mid sentence it was going so").2 (by decide)⟩

/-!
### The Twitter-content classifier (summarize.js lines 386-404, server.ts
lines 73-90)

`detectTwitterContent` sums, over six indicator regexes, the number of
matches `text.match(regex)` reports.  The first four regexes carry the `g`
flag, so `match` returns every non-overlapping occurrence (the scan resumes
right after each match, which `scanCount` reproduces); the two
`Thread`-indicator regexes have no `g` flag, so `match` reports at most one
match each.
-/

/-- Generic left-to-right non-overlapping scan: `m l` returns the length of
a match starting at the head of `l`, if any.  The fuel argument starts at
`l.length` and strictly dominates the number of scan steps, each of which
consumes at least one character. -/
def scanCountAux (m : List Char → Option Nat) : Nat → List Char → Nat
  | 0, _ => 0
  | _ + 1, [] => 0
  | fuel + 1, c :: rest =>
    match m (c :: rest) with
    | some len => 1 + scanCountAux m fuel (rest.drop (len - 1))
    | none => scanCountAux m fuel rest

/-- Number of matches of `m` in `l`, the embedding of
`(text.match(regex) || []).length` for a global regex. -/
def scanCount (m : List Char → Option Nat) (l : List Char) : Nat :=
  scanCountAux m l.length l

/-- Matcher for `/\d+\/\d+/` at the head of the input: a maximal digit run,
a slash, and a second maximal digit run. -/
def matchNumbering (l : List Char) : Option Nat :=
  let d1 := l.takeWhile isDigit
  if d1.isEmpty then none
  else
    match l.drop d1.length with
    | '/' :: r2 =>
      let d2 := r2.takeWhile isDigit
      if d2.isEmpty then none else some (d1.length + 1 + d2.length)
    | _ => none

/-- Matcher for `/@\w+/` at the head of the input. -/
def matchMention : List Char → Option Nat
  | '@' :: r =>
    let w := r.takeWhile isWordChar
    if w.isEmpty then none else some (1 + w.length)
  | _ => none

/-- Matcher for `/#\w+/` at the head of the input. -/
def matchHashtag : List Char → Option Nat
  | '#' :: r =>
    let w := r.takeWhile isWordChar
    if w.isEmpty then none else some (1 + w.length)
  | _ => none

/-- Matcher for the thread-emoji regex `/🧵/` at the head of the input. -/
def matchThreadEmoji : List Char → Option Nat
  | c :: _ => if c = '🧵' then some 1 else none
  | [] => none

/-- The summed indicator-match score of `detectTwitterContent`. -/
def twitterScore (l : List Char) : Nat :=
  scanCount matchNumbering l + scanCount matchMention l +
    scanCount matchHashtag l + scanCount matchThreadEmoji l +
    (if containsSubCI "Thread:".data l then 1 else 0) +
    (if containsSubCI "THREAD".data l then 1 else 0)

/-- `detectTwitterContent` from summarize.js / server.ts: thread-like iff
the summed score exceeds 2. -/
def detectTwitterContent (text : String) : Bool :=
  twitterScore text.data > 2

/-- Claim C3, counterexample: the classifier's threshold is 2, not 3.  The
text `"#one #two #three"` has exactly 3 indicator matches (its 3 hashtags),
does not strictly exceed 3, and yet is classified as thread-like. -/
theorem claim_C3_counterexample :
    twitterScore "#one #two #three".data = 3 ∧
    ¬ twitterScore "#one #two #three".data > 3 ∧
    detectTwitterContent "#one #two #three" = true := by
  refine ⟨by decide, by decide, by decide⟩

/-- Claim C3, amended: `detectTwitterContent` returns true exactly when the
summed count of matches of the six indicator patterns strictly exceeds 2
(not 3); in particular 4 hashtag tokens and no other indicators yield true,
and exactly 2 total indicator matches yield false. -/
theorem claim_C3 :
    (∀ text : String, detectTwitterContent text = decide (twitterScore text.data > 2)) ∧
    detectTwitterContent "#aa #bb #cc #dd" = true ∧
    twitterScore "#aa #bb #cc #dd".data = 4 ∧
    detectTwitterContent "#aa #bb" = false ∧
    twitterScore "#aa #bb".data = 2 :=
  ⟨fun _ => rfl, by decide, by decide, by decide, by decide⟩

/-!
### Request/response shapes shared by the handler embeddings
-/

/-- The JSON bodies the embedded handlers produce:
`''`, `JSON.stringify({ error: msg })` or `JSON.stringify({ success: b })`. -/
inductive RespBody
  | empty
  | errorMsg (msg : String)
  | success (flag : Bool)
deriving DecidableEq

/-- JS truthiness of an optional string field (`undefined` and `''` are
falsy). -/
def optTruthy : Option String → Bool
  | some s => !s.isEmpty
  | none => false

/-!
### The Twitter status-URL test (summarize.js line 505, server.ts line 123)

Embedding of `/https?:\/\/(?:twitter|x)\.com\/[^\/]+\/status\/\d+/.test(u)`.
Every quantifier in the pattern is locally deterministic (the optional `s`
cannot begin `://`, and `[^\/]+` must stop exactly at the next `/`), so a
backtracking-free matcher is faithful.
-/

/-- Strip a literal pattern from the head of the input, or fail. -/
def stripLit (pat l : List Char) : Option (List Char) :=
  if headMatches pat l then some (l.drop pat.length) else none

/-- Does the status-URL pattern match starting at the head of `l`? -/
def urlMatchAt (l : List Char) : Bool :=
  match stripLit "http".data l with
  | none => false
  | some r1 =>
    let r2 := match r1 with
      | 's' :: t => t
      | _ => r1
    match stripLit "://".data r2 with
    | none => false
    | some r3 =>
      let dom := match stripLit "twitter.com/".data r3 with
        | some r4 => some r4
        | none => stripLit "x.com/".data r3
      match dom with
      | none => false
      | some r4 =>
        let seg := r4.takeWhile (fun c => c ≠ '/')
        if seg.isEmpty then false
        else
          match stripLit "/status/".data (r4.drop seg.length) with
          | none => false
          | some r5 => !(r5.takeWhile isDigit).isEmpty

/-- Unanchored `test`: does the pattern match starting at some position? -/
def urlTestL : List Char → Bool
  | [] => false
  | c :: rest => urlMatchAt (c :: rest) || urlTestL rest

/-- The status-URL test at the `String` boundary. -/
def urlTest (u : String) : Bool :=
  urlTestL u.data

/-!
### Input validation of the summarize handler (summarize.js lines 505-552)

The handler's top-level branching: a truthy `threadUrl` matching the status
URL pattern selects the Twitter-fetch branch; otherwise a truthy `rawText`
of positive length selects the raw-text branch; otherwise the handler
returns 400 immediately, before any upstream interaction.
-/

/-- Which of the three top-level branches the summarize handler takes. -/
inductive SummarizeBranch
  | reject (msg : String)
  | twitterUrl (u : String)
  | rawTextB (t : String)
deriving DecidableEq

/-- The top-level branch decision of `exports.handler` in summarize.js
(identical in the `/summarize` route of server.ts, which also repeats the
reject for the `!threadUrl && !rawText` case up front). -/
def summarizeValidate (threadUrl rawText : Option String) : SummarizeBranch :=
  if optTruthy threadUrl && urlTest (threadUrl.getD "") then
    .twitterUrl (threadUrl.getD "")
  else if optTruthy rawText then
    .rawTextB (rawText.getD "")
  else
    .reject "No thread link or text provided."

/-- The response the summarize handler returns before reaching any
Twitter/LLM interaction: `some (400, error)` exactly on the reject branch,
`none` when the handler proceeds into the fetch/LLM pipeline. -/
def summarizeEarlyResponse (threadUrl rawText : Option String) :
    Option (Nat × RespBody) :=
  match summarizeValidate threadUrl rawText with
  | .reject msg => some (400, .errorMsg msg)
  | _ => none

/-- Claim C4, counterexample: a request with no `threadUrl` and a
whitespace-only `rawText` is not rejected — `rawText.length > 0` holds for
`" "`, so the handler proceeds to the upstream pipeline instead of
returning 400. -/
theorem claim_C4_counterexample :
    summarizeValidate none (some " ") = .rawTextB " " ∧
    summarizeEarlyResponse none (some " ") = none := by
  exact ⟨rfl, rfl⟩

/-- Claim C4, amended: when `threadUrl` is absent, empty or does not match
the status-URL pattern, and `rawText` is absent or empty (whitespace-only
`rawText` is accepted by the code and proceeds upstream), the summarize
handler returns HTTP 400 with an error body before any upstream LLM call. -/
theorem claim_C4 (threadUrl rawText : Option String)
    (hu : ∀ u, threadUrl = some u → u = "" ∨ urlTest u = false)
    (hr : rawText = none ∨ rawText = some "") :
    summarizeEarlyResponse threadUrl rawText =
      some (400, .errorMsg "No thread link or text provided.") := by
  unfold summarizeEarlyResponse summarizeValidate
  have h1 : (optTruthy threadUrl && urlTest (threadUrl.getD "")) = false := by
    cases threadUrl with
    | none => rfl
    | some u =>
      rcases hu u rfl with h | h
      · rw [h]; rfl
      · show (!String.isEmpty u && urlTest u) = false
        rw [h, Bool.and_false]
  have h2 : optTruthy rawText = false := by
    rcases hr with h | h <;> rw [h] <;> rfl
  rw [h1, h2]
  rfl

/-- Witness for claim C4: no `threadUrl`, no `rawText`. -/
theorem claim_C4_witness :
    summarizeEarlyResponse none none =
      some (400, .errorMsg "No thread link or text provided.") :=
  claim_C4 none none (fun _ h => by cases h) (Or.inl rfl)

/-!
### The retry-enabled upstream callers

Three near-duplicate `makeApiCallWithRetry` loops exist:
summarize.js lines 566-629 (2 attempts), crypto-explain.js lines 68-134
(2 attempts, with 429/402 masking), and server.ts lines 170-232
(3 attempts, retrying 429 as well).  Each attempt's raced `fetch` is
modelled by an oracle `o : Nat → UpOutcome` giving the outcome of the
attempt with that (1-based) number.  The JS `for` loop bounded by
`attempt <= retries` is driven by a structural fuel argument that starts at
`retries` when `attempt` starts at 1, so fuel reaches 0 exactly when
`attempt` passes `retries` and the loop exits.
-/

/-- Outcome of one raced upstream `fetch` attempt: an HTTP response
(`errText` is what `llmRes.text()` yields on a non-ok response, `body` on
an ok one), the race's `'Request timeout'` rejection (an `AbortError` in
the server.ts variant), or a network error whose message contains `fetch`
or whose code is `ECONNRESET`. -/
inductive UpOutcome
  | status (code : Nat) (errText body : String)
  | timeout
  | netErr
deriving DecidableEq

/-- Result of a retry loop: a successful response together with the number
of the attempt that produced it, an error thrown out of the loop at a given
attempt, or the fall-through when the loop exhausts all attempts. -/
inductive CallResult
  | success (attempt code : Nat) (body : String)
  | thrown (attempt : Nat) (msg : String)
  | exhausted (msg : String)
deriving DecidableEq

/-- The retryability test of the shared `catch` clause
(`error.message === 'Request timeout' || error.message.includes('fetch')
|| error.code === 'ECONNRESET'`), applied to an error thrown from the
non-ok-response path (such an error never carries a `code`). -/
def catchRetryable (msg : String) : Prop :=
  msg = "Request timeout" ∨ containsSubS msg "fetch" = true

instance (msg : String) : Decidable (catchRetryable msg) := by
  unfold catchRetryable; infer_instance

/-- `makeApiCallWithRetry` of summarize.js: retry on HTTP ≥ 500, timeouts
and network errors while attempts remain; any other non-ok response throws
`AI service error: <errText>`. -/
def summarizeRetryGo (o : Nat → UpOutcome) (retries : Nat) :
    (attempt : Nat) → (fuel : Nat) → CallResult
  | _, 0 => .exhausted "undefined"
  | attempt, fuel + 1 =>
    match o attempt with
    | .status code errText _body =>
      if 200 ≤ code ∧ code < 300 then .success attempt code _body
      else if 500 ≤ code ∧ attempt < retries then
        summarizeRetryGo o retries (attempt + 1) fuel
      else if catchRetryable ("AI service error: " ++ errText) ∧ attempt < retries then
        summarizeRetryGo o retries (attempt + 1) fuel
      else .thrown attempt ("AI service error: " ++ errText)
    | .timeout =>
      if attempt < retries then summarizeRetryGo o retries (attempt + 1) fuel
      else .thrown attempt "Request timeout"
    | .netErr =>
      if attempt < retries then summarizeRetryGo o retries (attempt + 1) fuel
      else .thrown attempt "fetch failed"

/-- Entry point of the summarize.js retry loop (`retries = 2` at the call
site). -/
def makeApiCallWithRetrySummarize (o : Nat → UpOutcome) (retries : Nat) :
    CallResult :=
  summarizeRetryGo o retries 1 retries

/-- `makeApiCallWithRetry` of server.ts: also retries HTTP 429, and builds
its thrown message as
`OpenRouter API error (<status>): <errText or fallback>`; exhausting the
loop throws `All retry attempts failed`. -/
def serverRetryGo (o : Nat → UpOutcome) (retries : Nat) :
    (attempt : Nat) → (fuel : Nat) → CallResult
  | _, 0 => .exhausted "All retry attempts failed"
  | attempt, fuel + 1 =>
    match o attempt with
    | .status code errText _body =>
      if 200 ≤ code ∧ code < 300 then .success attempt code _body
      else if (500 ≤ code ∨ code = 429) ∧ attempt < retries then
        serverRetryGo o retries (attempt + 1) fuel
      else
        if containsSubS ("OpenRouter API error (" ++ toString code ++ "): " ++
              (if errText.isEmpty then "LLM summarization failed" else errText))
              "fetch" = true ∧ attempt < retries then
          serverRetryGo o retries (attempt + 1) fuel
        else
          .thrown attempt ("OpenRouter API error (" ++ toString code ++ "): " ++
            (if errText.isEmpty then "LLM summarization failed" else errText))
    | .timeout =>
      if attempt < retries then serverRetryGo o retries (attempt + 1) fuel
      else .thrown attempt "AbortError"
    | .netErr =>
      if attempt < retries then serverRetryGo o retries (attempt + 1) fuel
      else .thrown attempt "fetch failed"

/-- Entry point of the server.ts retry loop (`retries = 3` at the call
site). -/
def makeApiCallWithRetryServer (o : Nat → UpOutcome) (retries : Nat) :
    CallResult :=
  serverRetryGo o retries 1 retries

/-- The masked message of crypto-explain.js for rate-limit and billing
failures. -/
def maintenanceMsg : String :=
  "Site under maintenance, bear with us and try again later"

/-- The message a non-retryable non-ok response makes crypto-explain.js
throw: the masked maintenance message for 429/402 (or tell-tale billing
text in `errText`), the generic `AI service error` otherwise. -/
def cryptoThrownMsg (code : Nat) (errText : String) : String :=
  if code = 429 ∨ containsSubS errText "rate limit" = true ∨
      containsSubS errText "quota" = true ∨ containsSubS errText "usage" = true then
    maintenanceMsg
  else if code = 402 ∨ containsSubS errText "insufficient" = true ∨
      containsSubS errText "credits" = true ∨
      containsSubS errText "requires more credits" = true ∨
      containsSubS errText "can only afford" = true then
    maintenanceMsg
  else "AI service error: " ++ errText

/-- `makeApiCallWithRetry` of crypto-explain.js: retry on HTTP ≥ 500,
timeouts and network errors while attempts remain; other non-ok responses
throw the message built by `cryptoThrownMsg`. -/
def cryptoRetryGo (o : Nat → UpOutcome) (retries : Nat) :
    (attempt : Nat) → (fuel : Nat) → CallResult
  | _, 0 => .exhausted "undefined"
  | attempt, fuel + 1 =>
    match o attempt with
    | .status code errText _body =>
      if 200 ≤ code ∧ code < 300 then .success attempt code _body
      else if 500 ≤ code ∧ attempt < retries then
        cryptoRetryGo o retries (attempt + 1) fuel
      else if catchRetryable (cryptoThrownMsg code errText) ∧ attempt < retries then
        cryptoRetryGo o retries (attempt + 1) fuel
      else .thrown attempt (cryptoThrownMsg code errText)
    | .timeout =>
      if attempt < retries then cryptoRetryGo o retries (attempt + 1) fuel
      else .thrown attempt "Request timeout"
    | .netErr =>
      if attempt < retries then cryptoRetryGo o retries (attempt + 1) fuel
      else .thrown attempt "fetch failed"

/-- Entry point of the crypto-explain.js retry loop (`retries = 2` at the
call site). -/
def makeApiCallWithRetryCrypto (o : Nat → UpOutcome) (retries : Nat) :
    CallResult :=
  cryptoRetryGo o retries 1 retries

/-- The error-to-HTTP mapping of the crypto-explain.js handler's `catch`
block (lines 183-218). -/
def cryptoErrorResponse (msg : String) : Nat × RespBody :=
  if msg = "Request timeout" then
    (408, .errorMsg ("Request timeout - the AI service is taking too long " ++
      "to respond. Try again in a moment."))
  else if !msg.isEmpty ∧ (containsSubS msg "rate limit" = true ∨
      containsSubS msg "Site under maintenance" = true) then
    (503, .errorMsg maintenanceMsg)
  else if !msg.isEmpty ∧ (containsSubS msg "quota" = true ∨
      containsSubS msg "usage" = true ∨ containsSubS msg "credits" = true ∨
      containsSubS msg "requires more credits" = true ∨
      containsSubS msg "can only afford" = true) then
    (503, .errorMsg maintenanceMsg)
  else if !msg.isEmpty ∧ containsSubS msg "network" = true then
    (503, .errorMsg "Network error - unable to connect to AI service. Please try again.")
  else if !msg.isEmpty ∧ containsSubS msg "Invalid response" = true then
    (502, .errorMsg "AI service returned an invalid response. Please try again.")
  else (500, .errorMsg (if msg.isEmpty then "Internal server error" else msg))

/-- The error branch of the server.ts `/summarize` handler's `catch` block:
a 504 for `AbortError`, otherwise a 500 carrying the error's message
verbatim. -/
def serverSummarizeErrorResponse (msg : String) (isAbort : Bool) :
    Nat × RespBody :=
  if isAbort then
    (504, .errorMsg ("The AI service is taking longer than usual. We tried " ++
      "multiple times but it\x27s still timing out. Try again in a moment " ++
      "or use shorter text."))
  else (500, .errorMsg (if msg.isEmpty then "Internal server error" else msg))

theorem summarizeRetryGo_success (o : Nat → UpOutcome) (e b : Nat → String)
    (eN bN : String) (N retries : Nat) (hNr : N ≤ retries)
    (h500 : ∀ i, i < N → 1 ≤ i → o i = .status 500 (e i) (b i))
    (h200 : o N = .status 200 eN bN) :
    ∀ fuel attempt, 1 ≤ attempt → attempt ≤ N → attempt + fuel = retries + 1 →
      summarizeRetryGo o retries attempt fuel = .success N 200 bN := by
  intro fuel
  induction fuel with
  | zero => intro attempt _ hN hinv; omega
  | succ fuel ih =>
    intro attempt h1 hN hinv
    by_cases heq : attempt = N
    · subst heq
      show summarizeRetryGo o retries attempt (fuel + 1) = _
      simp only [summarizeRetryGo]
      rw [h200]
      dsimp only
      rw [if_pos (by omega)]
    · have hlt : attempt < N := lt_of_le_of_ne hN heq
      show summarizeRetryGo o retries attempt (fuel + 1) = _
      simp only [summarizeRetryGo]
      rw [h500 attempt hlt h1]
      dsimp only
      rw [if_neg (by omega), if_pos (by omega)]
      exact ih (attempt + 1) (by omega) (by omega) (by omega)

theorem serverRetryGo_success (o : Nat → UpOutcome) (e b : Nat → String)
    (eN bN : String) (N retries : Nat) (hNr : N ≤ retries)
    (h500 : ∀ i, i < N → 1 ≤ i → o i = .status 500 (e i) (b i))
    (h200 : o N = .status 200 eN bN) :
    ∀ fuel attempt, 1 ≤ attempt → attempt ≤ N → attempt + fuel = retries + 1 →
      serverRetryGo o retries attempt fuel = .success N 200 bN := by
  intro fuel
  induction fuel with
  | zero => intro attempt _ hN hinv; omega
  | succ fuel ih =>
    intro attempt h1 hN hinv
    by_cases heq : attempt = N
    · subst heq
      show serverRetryGo o retries attempt (fuel + 1) = _
      simp only [serverRetryGo]
      rw [h200]
      dsimp only
      rw [if_pos (by omega)]
    · have hlt : attempt < N := lt_of_le_of_ne hN heq
      show serverRetryGo o retries attempt (fuel + 1) = _
      simp only [serverRetryGo]
      rw [h500 attempt hlt h1]
      dsimp only
      rw [if_neg (by omega), if_pos ⟨Or.inl (by omega), by omega⟩]
      exact ih (attempt + 1) (by omega) (by omega) (by omega)

/-- Claim C2: if the upstream returns HTTP 500 on the first `N - 1`
attempts and HTTP 200 on the `N`-th, with `1 ≤ N ≤ retries`, then both the
summarize.js and the server.ts `makeApiCallWithRetry` return the successful
response of attempt `N`, having performed exactly `N` attempts. -/
theorem claim_C2 (o : Nat → UpOutcome) (e b : Nat → String) (eN bN : String)
    (N retries : Nat) (h1 : 1 ≤ N) (h2 : N ≤ retries)
    (h500 : ∀ i, i < N → 1 ≤ i → o i = .status 500 (e i) (b i))
    (h200 : o N = .status 200 eN bN) :
    makeApiCallWithRetrySummarize o retries = .success N 200 bN ∧
    makeApiCallWithRetryServer o retries = .success N 200 bN :=
  ⟨summarizeRetryGo_success o e b eN bN N retries h2 h500 h200 retries 1
      le_rfl h1 (by omega),
   serverRetryGo_success o e b eN bN N retries h2 h500 h200 retries 1
      le_rfl h1 (by omega)⟩

/-- Witness for claim C2 with `N = 2`, `retries = 2`: one 500 then a 200. -/
theorem claim_C2_witness :
    makeApiCallWithRetrySummarize
        (fun i => if i < 2 then .status 500 "boom" "x" else .status 200 "" "OK") 2 =
      .success 2 200 "OK" ∧
    makeApiCallWithRetryServer
        (fun i => if i < 2 then .status 500 "boom" "x" else .status 200 "" "OK") 2 =
      .success 2 200 "OK" :=
  claim_C2 (fun i => if i < 2 then .status 500 "boom" "x" else .status 200 "" "OK")
    (fun _ => "boom") (fun _ => "x") "" "OK" 2 2 (by decide) (by decide)
    (by decide) (by decide)

/-- Claim C1, counterexample: the server.ts `makeApiCallWithRetry` (one of
the two callers the claim quantifies over) retries 429 responses: with an
upstream that always returns HTTP 429 with body `Rate limit exceeded`, it
performs 3 attempts, not 1, and the error surfaced to the end user by the
handler is a 500 carrying the literal rate-limit text. -/
theorem claim_C1_counterexample :
    makeApiCallWithRetryServer (fun _ => .status 429 "Rate limit exceeded" "") 3 =
      .thrown 3 "OpenRouter API error (429): Rate limit exceeded" ∧
    serverSummarizeErrorResponse "OpenRouter API error (429): Rate limit exceeded"
        false =
      (500, .errorMsg "OpenRouter API error (429): Rate limit exceeded") ∧
    containsSubS "OpenRouter API error (429): Rate limit exceeded" "Rate limit" =
      true := by
  refine ⟨by decide, by decide, by decide⟩

/-- Claim C1, amended: on an upstream that always answers HTTP 429, the
crypto-explain.js `makeApiCallWithRetry` performs exactly one attempt and
throws the fixed masked maintenance message (which its handler maps to a
503 with that same message, containing no rate-limit text); the server.ts
variant instead retries 429 up to its 3-attempt cap and surfaces the
literal upstream error text. -/
theorem claim_C1 (o : Nat → UpOutcome) (e b : Nat → String)
    (hall : ∀ i, o i = .status 429 (e i) (b i)) :
    makeApiCallWithRetryCrypto o 2 = .thrown 1 maintenanceMsg ∧
    cryptoErrorResponse maintenanceMsg = (503, .errorMsg maintenanceMsg) ∧
    containsSubS maintenanceMsg "rate limit" = false ∧
    makeApiCallWithRetryServer o 3 =
      .thrown 3 ("OpenRouter API error (429): " ++
        (if (e 3).isEmpty then "LLM summarization failed" else e 3)) := by
  have hmask : ∀ x, cryptoThrownMsg 429 x = maintenanceMsg := by
    intro x
    unfold cryptoThrownMsg
    rw [if_pos (Or.inl rfl)]
  refine ⟨?_, by decide, by decide, ?_⟩
  · show cryptoRetryGo o 2 1 2 = _
    simp only [cryptoRetryGo, hall, hmask]
    rw [if_neg (show ¬(200 ≤ 429 ∧ 429 < 300) by omega),
      if_neg (show ¬(500 ≤ 429 ∧ 1 < 2) by omega),
      if_neg (show ¬(catchRetryable maintenanceMsg ∧ 1 < 2) from
        fun h => absurd h.1 (by decide))]
  · show serverRetryGo o 3 1 3 = _
    simp only [serverRetryGo, hall]
    norm_num
    congr 1

/-- Witness for claim C1 at the constant all-429 oracle. -/
theorem claim_C1_witness :
    makeApiCallWithRetryCrypto (fun _ => .status 429 "limited" "") 2 =
      .thrown 1 maintenanceMsg ∧
    cryptoErrorResponse maintenanceMsg = (503, .errorMsg maintenanceMsg) ∧
    containsSubS maintenanceMsg "rate limit" = false ∧
    makeApiCallWithRetryServer (fun _ => .status 429 "limited" "") 3 =
      .thrown 3 ("OpenRouter API error (429): " ++
        (if ("limited" : String).isEmpty then "LLM summarization failed"
         else "limited")) :=
  claim_C1 (fun _ => .status 429 "limited" "") (fun _ => "limited") (fun _ => "")
    (fun _ => rfl)

/-!
### The single-URL thread fetcher (summarize.js lines 281-357)

`fetchTwitterContent` is modelled from the point after the thread
identifier has been extracted from the URL: one oracle value describes the
root-tweet request (a raced timeout, or a response with its status, the
optional `data.text` of the parsed body, and the optional `detail` of a
parsed error body), a second one the conversation-search request.  Every
`throw` inside the function is caught by its outer `catch`, which wraps the
message as `Unable to fetch content from <url>: <message>`.
-/

/-- A tweet as used by the fetcher: its text and its `created_at` key
(already converted to a comparable number, as `new Date(...).getTime()`
does). -/
structure Tweet where
  text : String
  created_at : Nat
deriving DecidableEq

/-- Outcome of the root-tweet request. -/
inductive RootOutcome
  | timeout
  | response (status : Nat) (data : Option String) (errDetail : Option String)
deriving DecidableEq

/-- Outcome of the conversation-search request: a thrown error (timeout
included), or a response with its `ok` flag and parsed tweet list
(`conversationData.data || []`). -/
inductive ConvOutcome
  | exception
  | response (ok : Bool) (tweets : List Tweet)
deriving DecidableEq

/-- Stable ascending insertion by `created_at`: the embedding of the JS
stable `Array.prototype.sort((a, b) => dateA - dateB)`. -/
def insertByCreated (t : Tweet) : List Tweet → List Tweet
  | [] => [t]
  | u :: us =>
    if u.created_at < t.created_at then u :: insertByCreated t us
    else t :: u :: us

/-- Stable sort of the conversation tweets by `created_at`, ascending. -/
def sortByCreated : List Tweet → List Tweet
  | [] => []
  | t :: ts => insertByCreated t (sortByCreated ts)

/-- `sorted.map((t, index) => `<index+1>. <text>`)`. -/
def numberTweets (start : Nat) : List Tweet → List String
  | [] => []
  | t :: ts => (toString start ++ ". " ++ t.text) :: numberTweets (start + 1) ts

/-- The assembled numbered thread text, joined with blank-line
separators. -/
def numberedThread (ts : List Tweet) : String :=
  joinSep "\n\n" (numberTweets 1 (sortByCreated ts))

/-- `fetchTwitterContent` of summarize.js: `cfg` is the presence of
`TWITTER_BEARER_TOKEN`. -/
def fetchTwitterContent (url : String) (cfg : Bool) (root : RootOutcome)
    (conv : ConvOutcome) : Except String String :=
  let inner : Except String String :=
    if !cfg then .error "Twitter API access not configured"
    else
      match root with
      | .timeout => .error "Twitter API timeout"
      | .response status data errDetail =>
        if 200 ≤ status ∧ status < 300 then
          match data with
          | none => .error "Unable to fetch original tweet"
          | some rootText =>
            match conv with
            | .exception => .ok rootText
            | .response ok tweets =>
              if ok then
                if tweets.isEmpty then .ok rootText
                else .ok (numberedThread tweets)
              else .ok rootText
        else if status = 401 then .error "Twitter API authentication failed"
        else if status = 403 then .error "Tweet is private or protected"
        else if status = 404 then .error "Tweet not found or has been deleted"
        else
          .error ("Twitter API error: " ++ toString status ++ " - " ++
            errDetail.getD "Unknown error")
  match inner with
  | .ok t => .ok t
  | .error m => .error ("Unable to fetch content from " ++ url ++ ": " ++ m)

/-- Claim C6: once the root tweet has been fetched successfully, a failing
or empty conversation-search step never fails the overall fetch — the root
message text is returned. -/
theorem claim_C6 (url : String) (status : Nat) (rootText : String)
    (ed : Option String) (conv : ConvOutcome)
    (hok : 200 ≤ status ∧ status < 300)
    (hconv : conv = .exception ∨ (∃ tweets, conv = .response false tweets) ∨
      conv = .response true []) :
    fetchTwitterContent url true (.response status (some rootText) ed) conv =
      .ok rootText := by
  unfold fetchTwitterContent
  rcases hconv with h | ⟨tweets, h⟩ | h <;> subst h <;>
    simp only [Bool.not_true, Bool.false_eq_true, if_false, if_pos hok,
      List.isEmpty_nil, if_true]

/-- Witness for claim C6: a 200 root with an ok-but-empty conversation
response. -/
theorem claim_C6_witness :
    (200 ≤ 200 ∧ 200 < 300) ∧
    fetchTwitterContent "https://x.com/u/status/1" true
        (.response 200 (some "root text") none) (.response true []) =
      .ok "root text" :=
  ⟨by omega, claim_C6 "https://x.com/u/status/1" 200 "root text" none
    (.response true []) (by omega) (Or.inr (Or.inr rfl))⟩

/-!
### The multi-URL fetcher (summarize.js lines 359-384, server.ts lines
44-70)

Both variants loop over a bounded prefix of the URL list (2 in the netlify
function, 3 in server.ts), label each fetched content block, collect
per-URL errors, throw when nothing could be fetched and append a trailing
error block otherwise.
-/

/-- The accumulation loop over the attempted URLs: the contents pushed for
successes and the error lines pushed for failures, in traversal order. -/
def fetchLoop (f : String → Except String String) :
    List String → List String × List String
  | [] => ([], [])
  | u :: rest =>
    let r := fetchLoop f rest
    match f u with
    | .ok content => (("--- Content from " ++ u ++ " ---\n" ++ content) :: r.1, r.2)
    | .error msg => (r.1, (u ++ ": " ++ msg) :: r.2)

/-- Is the fetch result an error (a thrown JS exception)? -/
def isErr : Except String String → Bool
  | .error _ => true
  | .ok _ => false

/-- `fetchContentFromTwitterUrls` of summarize.js (2-URL prefix). -/
def fetchContentFromTwitterUrls (f : String → Except String String)
    (urls : List String) : Except String String :=
  let r := fetchLoop f (urls.take 2)
  if r.1.isEmpty then
    .error ("Could not fetch any Twitter content. Errors: " ++ joinSep "; " r.2)
  else
    .ok (joinSep "\n\n" (r.1 ++
      if r.2.isEmpty then []
      else ["--- Errors fetching some URLs ---\n" ++ joinSep "\n" r.2]))

/-- `fetchContentFromTwitterUrls` of server.ts (3-URL prefix). -/
def fetchContentFromTwitterUrlsServer (f : String → Except String String)
    (urls : List String) : Except String String :=
  let r := fetchLoop f (urls.take 3)
  if r.1.isEmpty then
    .error ("Could not fetch content from any of the provided Twitter URLs. " ++
      "Errors: " ++ joinSep "; " r.2)
  else
    .ok (joinSep "\n\n" (r.1 ++
      if r.2.isEmpty then []
      else ["--- Errors fetching some URLs ---\n" ++ joinSep "\n" r.2]))

/-- The labelled content block of a successful URL, `none` on failure. -/
def okLabel (f : String → Except String String) (u : String) : Option String :=
  match f u with
  | .ok content => some ("--- Content from " ++ u ++ " ---\n" ++ content)
  | .error _ => none

/-- The error line of a failed URL, `none` on success. -/
def errLabel (f : String → Except String String) (u : String) : Option String :=
  match f u with
  | .ok _ => none
  | .error msg => some (u ++ ": " ++ msg)

theorem fetchLoop_spec (f : String → Except String String) (l : List String) :
    fetchLoop f l = (l.filterMap (okLabel f), l.filterMap (errLabel f)) := by
  induction l with
  | nil => rfl
  | cons u rest ih =>
    show (match f u with
      | .ok content =>
        (("--- Content from " ++ u ++ " ---\n" ++ content) :: (fetchLoop f rest).1,
          (fetchLoop f rest).2)
      | .error msg =>
        ((fetchLoop f rest).1, (u ++ ": " ++ msg) :: (fetchLoop f rest).2)) = _
    rw [ih]
    cases hf : f u with
    | ok content => simp [List.filterMap_cons, okLabel, errLabel, hf]
    | error msg => simp [List.filterMap_cons, okLabel, errLabel, hf]

/-- Claim C7: the multi-URL fetcher only ever fetches a bounded prefix of
its input (2 URLs in the netlify variant, 3 in the server.ts one), fails
exactly when every attempted URL failed, and otherwise returns the labelled
successful blocks joined, with a trailing error block exactly when some
attempted URL failed. -/
theorem claim_C7 (f : String → Except String String) (urls : List String) :
    fetchContentFromTwitterUrls f urls =
      fetchContentFromTwitterUrls f (urls.take 2) ∧
    (isErr (fetchContentFromTwitterUrls f urls) = true ↔
      ∀ u ∈ urls.take 2, isErr (f u) = true) ∧
    (isErr (fetchContentFromTwitterUrlsServer f urls) = true ↔
      ∀ u ∈ urls.take 3, isErr (f u) = true) ∧
    ((∃ u ∈ urls.take 2, isErr (f u) = false) →
      fetchContentFromTwitterUrls f urls =
        .ok (joinSep "\n\n" ((urls.take 2).filterMap (okLabel f) ++
          if ((urls.take 2).filterMap (errLabel f)).isEmpty then []
          else ["--- Errors fetching some URLs ---\n" ++
            joinSep "\n" ((urls.take 2).filterMap (errLabel f))]))) := by
  have hok_none : ∀ u, okLabel f u = none ↔ isErr (f u) = true := by
    intro u
    unfold okLabel isErr
    cases f u <;> simp
  have hmain : ∀ l, (fetchLoop f l).1.isEmpty = true ↔ ∀ u ∈ l, isErr (f u) = true := by
    intro l
    rw [fetchLoop_spec]
    simp only [List.isEmpty_iff, List.filterMap_eq_nil_iff]
    constructor
    · intro h u hu
      exact (hok_none u).mp (h u hu)
    · intro h u hu
      exact (hok_none u).mpr (h u hu)
  refine ⟨?_, ?_, ?_, ?_⟩
  · unfold fetchContentFromTwitterUrls
    rw [List.take_take]
    norm_num
  · unfold fetchContentFromTwitterUrls
    dsimp only
    by_cases h : (fetchLoop f (urls.take 2)).1.isEmpty = true
    · rw [if_pos h]
      exact iff_of_true rfl ((hmain (urls.take 2)).mp h)
    · rw [if_neg h]
      exact iff_of_false (by simp [isErr])
        (fun hall => h ((hmain (urls.take 2)).mpr hall))
  · unfold fetchContentFromTwitterUrlsServer
    dsimp only
    by_cases h : (fetchLoop f (urls.take 3)).1.isEmpty = true
    · rw [if_pos h]
      exact iff_of_true rfl ((hmain (urls.take 3)).mp h)
    · rw [if_neg h]
      exact iff_of_false (by simp [isErr])
        (fun hall => h ((hmain (urls.take 3)).mpr hall))
  · rintro ⟨u, hu, hsucc⟩
    unfold fetchContentFromTwitterUrls
    dsimp only
    have hne : (fetchLoop f (urls.take 2)).1.isEmpty ≠ true := by
      intro h
      have hcontra := (hmain (urls.take 2)).mp h u hu
      rw [hsucc] at hcontra
      cases hcontra
    rw [if_neg hne, fetchLoop_spec]

/-- Witness for claim C7 at a concrete oracle: the first URL succeeds, the
second fails, the third is never attempted by the 2-bounded variant. -/
theorem claim_C7_witness :
    fetchContentFromTwitterUrls
        (fun u => if u = "a" then .ok "ca" else .error "boom") ["a", "b", "c"] =
      .ok (joinSep "\n\n" ((["a", "b", "c"].take 2).filterMap
          (okLabel (fun u => if u = "a" then .ok "ca" else .error "boom")) ++
        if ((["a", "b", "c"].take 2).filterMap
            (errLabel (fun u => if u = "a" then .ok "ca" else .error "boom"))).isEmpty
        then []
        else ["--- Errors fetching some URLs ---\n" ++ joinSep "\n"
          ((["a", "b", "c"].take 2).filterMap
            (errLabel (fun u => if u = "a" then .ok "ca" else .error "boom")))])) :=
  (claim_C7 (fun u => if u = "a" then .ok "ca" else .error "boom")
    ["a", "b", "c"]).2.2.2 ⟨"a", by decide, by decide⟩

/-!
### The prompt builder (summarize.js lines 891-943)

`getPromptForTone` of the second summarize.js revision, with its optional
content-analysis preface.  The template literals are transcribed verbatim
(apostrophes appear as the escape `\x27`).
-/

/-- The advisory content analysis handed to the prompt builder. -/
structure ContentAnalysis where
  contentType : String
  complexity : String
  names : List String
  numbers : List String
  technicalTerms : List String
deriving DecidableEq

/-- The `analysisContext` template: empty when no analysis was supplied. -/
def analysisContext : Option ContentAnalysis → String
  | none => ""
  | some a =>
    "\nCONTENT ANALYSIS:\n- Type: " ++ a.contentType ++
    "\n- Complexity: " ++ a.complexity ++
    "\n- Key names: " ++ joinSep ", " a.names ++
    "\n- Important numbers: " ++ joinSep ", " a.numbers ++
    "\n- Technical terms: " ++ joinSep ", " a.technicalTerms ++
    "\n\nCRITICAL INSTRUCTIONS:\n"

/-- The `baseInstruction` template. -/
def baseInstruction (ca : Option ContentAnalysis) : String :=
  analysisContext ca ++
  "You are a brilliant human content summarizer who writes with natural " ++
  "flow and authentic voice. Read and understand the content first, then " ++
  "provide ONLY the summary response without any introductory phrases, " ++
  "questions, or commentary. \n\nMANDATORY REQUIREMENTS:\n" ++
  "1. Write naturally and conversationally, but stay calm and measured\n" ++
  "2. Preserve ALL important names, numbers, technical terms, and key concepts from the original\n" ++
  "3. Keep it concise and clear - get to the point smoothly\n" ++
  "4. Ensure the summary is factually accurate and makes complete sense\n" ++
  "5. Use proper grammar and keep it conversational and brief\n" ++
  "6. Never ask questions or request clarification\n" ++
  "7. Make it informative and engaging without being overly excited\n" ++
  "8. Avoid using em dashes (—) in your response\n" ++
  "9. Focus on accuracy and clarity over enthusiasm"

/-- The `twitterContext` preface. -/
def twitterContext (isTwitterContent : Bool) : String :=
  if isTwitterContent then
    "This is Twitter/X content. Pull out the main points quickly and make them digestible. "
  else ""

/-- The `bulletInstruction` preface. -/
def bulletInstruction (length : String) : String :=
  if length = "bullet list" then
    "Format as clean, SHORT bullet points. Use • or - for bullets. Make each bullet punchy and complete. "
  else ""

/-- `getPromptForTone` of summarize.js (second revision). -/
def getPromptForTone (tone length content : String) (isTwitterContent : Bool)
    (contentAnalysis : Option ContentAnalysis) : String :=
  if tone = "shitpost" then
    twitterContext isTwitterContent ++ bulletInstruction length ++
    "Turn this into a " ++ length ++
    " that\x27s funny and engaging while hitting the main points. Use casual " ++
    "internet language but keep it informative. Keep ALL important " ++
    "names/numbers but make it entertaining. Be witty but not over the top. " ++
    baseInstruction contentAnalysis ++ "\n\nCONTENT TO SUMMARIZE:\n" ++ content
  else if tone = "infographics" then
    twitterContext isTwitterContent ++ bulletInstruction length ++
    "Make this into " ++ length ++
    " perfect for an infographic. Clean sections, key stats, visual " ++
    "structure. Use emojis naturally and organize for easy scanning. Keep " ++
    "ALL important numbers/names but structure them clearly. " ++
    baseInstruction contentAnalysis ++ "\n\nCONTENT TO SUMMARIZE:\n" ++ content
  else if tone = "simple" then
    twitterContext isTwitterContent ++ bulletInstruction length ++
    "Break this down into " ++ length ++
    " anyone can understand. Use everyday language and simple examples. " ++
    "Keep ALL important names/numbers but explain what they mean clearly. " ++
    "Like explaining to a friend who wants to understand. " ++
    baseInstruction contentAnalysis ++ "\n\nCONTENT TO SUMMARIZE:\n" ++ content
  else if tone = "professional" then
    twitterContext isTwitterContent ++ bulletInstruction length ++
    "Write this as " ++ length ++
    " in professional tone that\x27s polished but human. Like a good meeting " ++
    "summary. Keep all technical terms/names/numbers but make it " ++
    "business-appropriate and clear. " ++
    baseInstruction contentAnalysis ++ "\n\nCONTENT TO SUMMARIZE:\n" ++ content
  else if tone = "conversational" then
    twitterContext isTwitterContent ++ bulletInstruction length ++
    "Explain this in " ++ length ++
    " like talking to a friend. Natural, relaxed, with some personality. " ++
    "Real conversation feel. Keep all important names/numbers but explain " ++
    "them naturally. " ++
    baseInstruction contentAnalysis ++ "\n\nCONTENT TO SUMMARIZE:\n" ++ content
  else
    twitterContext isTwitterContent ++ bulletInstruction length ++
    "Write this as " ++ length ++ " with " ++ tone ++
    " tone that\x27s authentic and human. Keep all important " ++
    "keywords/names/numbers but make it clear and engaging. " ++
    baseInstruction contentAnalysis ++ "\n\nCONTENT TO SUMMARIZE:\n" ++ content

/-- Claim C8: for every tone outside the enumerated set, prompt
construction still succeeds and the generated instruction text embeds the
literal tone string, with the content appended last. -/
theorem claim_C8 (tone length content : String) (isTw : Bool)
    (ca : Option ContentAnalysis)
    (h : tone ∉ (["simple", "professional", "conversational", "shitpost",
      "infographics"] : List String)) :
    (∃ p q, getPromptForTone tone length content isTw ca = p ++ tone ++ q) ∧
    (∃ r, getPromptForTone tone length content isTw ca = r ++ content) := by
  simp only [List.mem_cons, List.mem_singleton, not_or] at h
  obtain ⟨hsim, hpro, hconv, hshit, hinfo, -⟩ := h
  unfold getPromptForTone
  rw [if_neg hshit, if_neg hinfo, if_neg hsim, if_neg hpro, if_neg hconv]
  constructor
  · refine ⟨twitterContext isTw ++ bulletInstruction length ++
      "Write this as " ++ length ++ " with ",
      " tone that\x27s authentic and human. Keep all important " ++
      "keywords/names/numbers but make it clear and engaging. " ++
      baseInstruction ca ++ "\n\nCONTENT TO SUMMARIZE:\n" ++ content, ?_⟩
    simp only [String.append_assoc]
  · refine ⟨twitterContext isTw ++ bulletInstruction length ++
      "Write this as " ++ length ++ " with " ++ tone ++
      " tone that\x27s authentic and human. Keep all important " ++
      "keywords/names/numbers but make it clear and engaging. " ++
      baseInstruction ca ++ "\n\nCONTENT TO SUMMARIZE:\n", ?_⟩
    simp only [String.append_assoc]

/-- Witness for claim C8 at the unrecognised tone `"pirate"`. -/
theorem claim_C8_witness :
    (∃ p q, getPromptForTone "pirate" "1 line" "hello" false none =
      p ++ "pirate" ++ q) ∧
    (∃ r, getPromptForTone "pirate" "1 line" "hello" false none = r ++ "hello") :=
  claim_C8 "pirate" "1 line" "hello" false none (by decide)

/-!
### The track-visit handler (netlify/functions/track-visit.js)

`logThrows` models whether the awaited `logSiteVisit` call rejects (the
handler's `catch` then swallows the failure and still answers 200).
-/

/-- The track-visit handler's status code and body per HTTP method. -/
def trackVisitHandler (method : String) (logThrows : Bool) : Nat × RespBody :=
  if method = "OPTIONS" then (200, .empty)
  else if method ≠ "POST" then (405, .errorMsg "Method not allowed")
  else if logThrows then (200, .success false)
  else (200, .success true)

/-- Claim C9, counterexample: a GET request to track-visit is answered with
HTTP 405 and an error body, not a success-shaped 200 as the claim states. -/
theorem claim_C9_counterexample :
    trackVisitHandler "GET" false = (405, .errorMsg "Method not allowed") ∧
    (trackVisitHandler "GET" false).1 ≠ 200 ∧
    ∀ b, (trackVisitHandler "GET" false).2 ≠ .success b := by
  refine ⟨by decide, by decide, ?_⟩
  intro b
  cases b <;> decide

/-- Claim C9, amended: every POST request to track-visit — including those
whose analytics write throws internally — is answered with HTTP 200 and a
success-shaped body; a GET request is rejected with 405. -/
theorem claim_C9 :
    (∀ logThrows, (trackVisitHandler "POST" logThrows).1 = 200 ∧
      ∃ b, (trackVisitHandler "POST" logThrows).2 = .success b) ∧
    (trackVisitHandler "GET" false).1 = 405 := by
  refine ⟨?_, by decide⟩
  intro logThrows
  cases logThrows <;> exact ⟨rfl, _, rfl⟩

end JOM

